import Mathlib

/-!
Verification development for the ImageProcessor repository.

The Go sources are shallowly embedded: records become structures, the
processing state machine becomes explicit state passing, machine integers
become `Nat`/`Int`, fallible operations return `Except`/`Option`, and the
external collaborators (metadata store, asset store, queue) become explicit
environment parameters recording which calls succeed or fail.
-/

namespace ImageProcessor

/-! ## Domain model (internal/domain/image.go) -/

/-- Processing lifecycle status (`ProcessingStatus` constants in image.go). -/
inductive ProcessingStatus
  | pending
  | processing
  | completed
  | failed
deriving DecidableEq, Repr

/-- Processing type is a plain string in the Go source (`ProcessingType string`). -/
abbrev ProcessingType := String

def processingResize : ProcessingType := "resize"

def processingThumbnail : ProcessingType := "thumbnail"

def processingWatermark : ProcessingType := "watermark"

/-- The image metadata record (`domain.Image`).  Timestamps are modelled as
`Nat` instants supplied explicitly by callers in place of `time.Now()`. -/
structure Image where
  id : String
  originalFilename : String
  originalPath : String
  processedPath : String
  mimeType : String
  size : Int
  width : Int
  height : Int
  status : ProcessingStatus
  processingType : ProcessingType
  errorMessage : String
  createdAt : Nat
  updatedAt : Nat
  processedAt : Option Nat
deriving DecidableEq, Repr

/-- `Image.IsProcessed`: true iff the status is completed. -/
def Image.isProcessed (i : Image) : Bool :=
  i.status == .completed

/-- `Image.IsFailed`. -/
def Image.isFailed (i : Image) : Bool :=
  i.status == .failed

/-- `Image.CanBeProcessed`: the status guard used by the worker. -/
def Image.canBeProcessed (i : Image) : Bool :=
  i.status == .pending || i.status == .failed

/-- `Image.MarkAsProcessing`: sets status and the update timestamp, nothing else. -/
def Image.markAsProcessing (i : Image) (now : Nat) : Image :=
  { i with status := .processing, updatedAt := now }

/-- `Image.MarkAsCompleted`: sets status, processed path, dimensions, the
processed/updated timestamps, and clears the error message. -/
def Image.markAsCompleted (i : Image) (processedPath : String) (width height : Int)
    (now : Nat) : Image :=
  { i with
    status := .completed
    processedPath := processedPath
    width := width
    height := height
    processedAt := some now
    updatedAt := now
    errorMessage := "" }

/-- `Image.MarkAsFailed`: sets status, the error message and the update timestamp. -/
def Image.markAsFailed (i : Image) (errMsg : String) (now : Nat) : Image :=
  { i with status := .failed, errorMessage := errMsg, updatedAt := now }

/-! ## Images as dimensions

All properties claimed about the transformation engine concern canvas
dimensions and overlay positions, so an image is embedded as its width and
height. -/

/-- An image, embedded by its bounds (`img.Bounds().Dx()/Dy()`). -/
structure Img where
  w : Nat
  h : Nat
deriving DecidableEq, Repr

/-! ## imaging library dimension semantics

The processor delegates scaling to `imaging.Fit` and `imaging.Resize`
(github.com/disintegration/imaging, fit.go / resize.go).  The following two
functions embed the output-dimension computation of those library functions,
with the float64 arithmetic carried out exactly: `int(x)` on a nonnegative
value is `Nat` floor division, and `int(math.Max(1, math.Floor(t+0.5)))`
becomes the rounded division `(2*a + b) / (2*b)` clamped below by 1. -/

/-- Output dimensions of `imaging.Resize(img, dstW, dstH, filter)`: a zero
target width or height is replaced by the aspect-preserving rounded value,
with a minimum of one pixel. -/
def resizeDims (srcW srcH dstW dstH : Nat) : Nat × Nat :=
  if dstW = 0 ∧ dstH = 0 then (0, 0)
  else if srcW = 0 ∨ srcH = 0 then (0, 0)
  else
    let dstW1 := if dstW = 0 then max 1 ((2 * dstH * srcW + srcH) / (2 * srcH)) else dstW
    let dstH1 := if dstH = 0 then max 1 ((2 * dstW1 * srcH + srcW) / (2 * srcW)) else dstH
    (dstW1, dstH1)

/-- Output dimensions of `imaging.Fit(img, maxW, maxH, filter)`: an image that
already fits in the box is returned at its own size; otherwise the binding
dimension is set to the box and the other scaled proportionally (the float
comparison `srcW/srcH > maxW/maxH` is the exact cross-multiplied one, and
`int(float64(newW) / srcAspectRatio)` is floor division). -/
def fitDims (srcW srcH maxW maxH : Nat) : Nat × Nat :=
  if maxW = 0 ∨ maxH = 0 then (0, 0)
  else if srcW = 0 ∨ srcH = 0 then (0, 0)
  else if srcW ≤ maxW ∧ srcH ≤ maxH then (srcW, srcH)
  else if srcW * maxH > maxW * srcH then
    resizeDims srcW srcH maxW (maxW * srcH / srcW)
  else
    resizeDims srcW srcH (maxH * srcW / srcH) maxH

/-! ## Processor configuration and the resize / thumbnail operations
(internal/infrastructure/processor/processor.go) -/

/-- The processing configuration fields the engine reads (`ProcessingConfig`).
Dimensions are Go `int`s, so they are embedded as `Int` (the guards compare
them with 0). -/
structure ProcessingConfig where
  resizeWidth : Int
  resizeHeight : Int
  thumbnailWidth : Int
  thumbnailHeight : Int
  watermarkOpacity : Int
deriving DecidableEq, Repr

/-- `ImageProcessor.resize`: non-positive configured box returns the image
unchanged; so does an empty `imaging.Fit` result. -/
def resize (cfg : ProcessingConfig) (img : Img) : Img :=
  if cfg.resizeWidth ≤ 0 ∨ cfg.resizeHeight ≤ 0 then img
  else
    let r := fitDims img.w img.h cfg.resizeWidth.toNat cfg.resizeHeight.toNat
    if r.1 = 0 ∨ r.2 = 0 then img else ⟨r.1, r.2⟩

/-- `ImageProcessor.thumbnail`: the same algorithm as `resize` against the
thumbnail box. -/
def thumbnail (cfg : ProcessingConfig) (img : Img) : Img :=
  if cfg.thumbnailWidth ≤ 0 ∨ cfg.thumbnailHeight ≤ 0 then img
  else
    let r := fitDims img.w img.h cfg.thumbnailWidth.toNat cfg.thumbnailHeight.toNat
    if r.1 = 0 ∨ r.2 = 0 then img else ⟨r.1, r.2⟩

/-! ## Watermark tiling (processor.go, `watermark`) -/

/-- `targetWidth := width / 4`, raised to a minimum of 10. -/
def wmTargetWidth (width : Nat) : Nat :=
  if width / 4 < 10 then 10 else width / 4

/-- `opacity := float64(cfg.WatermarkOpacity) / 255.0`, clamped to `[0,1]`
(exact rational arithmetic). -/
def wmOpacity (configured : Int) : ℚ :=
  let o : ℚ := (configured : ℚ) / 255
  if o < 0 then 0 else if o > 1 then 1 else o

/-- `spacing := rotW/2 + 20`, raised to a minimum of 10. -/
def wmSpacing (rotW : Nat) : Nat :=
  if rotW / 2 + 20 < 10 then 10 else rotW / 2 + 20

/-- `step := rotW + spacing` — the stride actually used between tiles. -/
def wmStep (rotW : Nat) : Nat :=
  rotW + wmSpacing rotW

/-- Fuelled binary search for the integer square root: maintains
`lo² ≤ n < hi²` and narrows the bracket.  (A structurally recursive sqrt that
both the evaluator and the kernel can compute; `isqrt_spec` below proves it is
the floor square root.) -/
def sqrtGo (n : Nat) : Nat → Nat → Nat → Nat
  | 0, lo, _ => lo
  | fuel + 1, lo, hi =>
    if hi ≤ lo + 1 then lo
    else
      let mid := (lo + hi) / 2
      if mid * mid ≤ n then sqrtGo n fuel mid hi else sqrtGo n fuel lo mid

/-- The floor integer square root. -/
def isqrt (n : Nat) : Nat :=
  sqrtGo n (n + 1) 0 (n + 1)

/-- `diagLen := int(math.Hypot(width, height)) + rotW`; the float hypotenuse
floor on exact inputs is the floor square root of the sum of squares. -/
def wmDiagLen (width height rotW : Nat) : Nat :=
  isqrt (width * width + height * height) + rotW

/-- `count := diagLen/step + 2`, raised to a minimum of 1. -/
def wmCount (width height rotW : Nat) : Nat :=
  let c := wmDiagLen width height rotW / wmStep rotW + 2
  if c < 1 then 1 else c

/-- One linearly interpolated coordinate: `int((1-t)*a + t*b)` with
`t = i/count`, computed exactly and truncated toward zero as Go's `int(...)`
float conversion does. -/
def wmLerp (a b : Int) (count i : Nat) : Int :=
  Int.tdiv (((count : Int) - i) * a + i * b) count

/-- The overlay position for tile `i`: interpolation from
`(-rotW, -rotH)` to `(width, height)`. -/
def wmPos (width height rotW rotH : Nat) (count i : Nat) : Int × Int :=
  (wmLerp (-(rotW : Int)) width count i, wmLerp (-(rotH : Int)) height count i)

/-- All overlay positions, for `i` in `0..count` inclusive. -/
def wmPositions (width height rotW rotH : Nat) : List (Int × Int) :=
  (List.range (wmCount width height rotW + 1)).map
    (wmPos width height rotW rotH (wmCount width height rotW))

/-- Modelled from the spec: the tiling stride as the specification states it —
`step = rotatedWidth/2 + 20` with a minimum of 10 — for comparison with the
source's `wmStep`. -/
def wmStepClaimed (rotW : Nat) : Nat :=
  if rotW / 2 + 20 < 10 then 10 else rotW / 2 + 20

/-- Modelled from the spec: the tile count as the specification states it,
`count = diag/step + 2` with the spec's `step`, for comparison with `wmCount`. -/
def wmCountClaimed (width height rotW : Nat) : Nat :=
  wmDiagLen width height rotW / wmStepClaimed rotW + 2

/-- `imaging.Clone` preserves the bounds. -/
def cloneDims (img : Img) : Img := img

/-- `imaging.Overlay(background, fg, pos, opacity)` returns an image with the
background's bounds. -/
def overlayDims (background : Img) (_fg : Img) (_pos : Int × Int) (_opacity : ℚ) : Img :=
  background

/-- `ImageProcessor.watermark`.  The bounding box of the rotated watermark is
produced by `imaging.Rotate`'s float geometry, embedded as an explicit
`rotDims` oracle from the scaled dimensions; everything after that follows the
source: scale to `wmTargetWidth`, rotate, then overlay at each tiled position
onto a clone of the input. -/
def watermark (rotDims : Nat → Nat → Nat × Nat) (watermarkImg : Option Img)
    (cfg : ProcessingConfig) (img : Img) : Img :=
  match watermarkImg with
  | none => img
  | some wm =>
    if wm.w = 0 ∨ wm.h = 0 then img
    else
      let out := cloneDims img
      let opacity := wmOpacity cfg.watermarkOpacity
      let scaled := resizeDims wm.w wm.h (wmTargetWidth img.w) 0
      let rot := rotDims scaled.1 scaled.2
      (wmPositions img.w img.h rot.1 rot.2).foldl
        (fun acc p => overlayDims acc ⟨rot.1, rot.2⟩ p opacity) out

/-! ## Process dispatch (processor.go, `Process`) -/

/-- `ImageProcessor.Process` after decoding: the decode result is an
`Option Img` (`none` embeds a decode error), an empty decoded image is an
error, and the processing type selects the operation; any other type is the
"unknown processing type" error. -/
def Process (rotDims : Nat → Nat → Nat × Nat) (watermarkImg : Option Img)
    (cfg : ProcessingConfig) (decoded : Option Img) (processingType : ProcessingType) :
    Except String Img :=
  match decoded with
  | none => .error "decode image"
  | some img =>
    if img.w = 0 ∨ img.h = 0 then .error "decoded image is empty"
    else if processingType = processingResize then .ok (resize cfg img)
    else if processingType = processingThumbnail then .ok (thumbnail cfg img)
    else if processingType = processingWatermark then
      .ok (watermark rotDims watermarkImg cfg img)
    else .error ("unknown processing type: " ++ processingType)

/-! ## The worker state machine (internal/usecase/processor_usecase.go)

`ProcessImage` is embedded as a state-passing interpreter.  The state is the
stored metadata row for the image together with counters of the asset-store
and metadata-store effects performed; the environment fixes the outcome of
each external call the code makes. -/

/-- A storage error as seen by the usecase: the dedicated not-found error or
any other transport error. -/
inductive StorageErr
  | objectNotFound
  | ioError (msg : String)
deriving DecidableEq, Repr

/-- The message text of a storage error. -/
def StorageErr.msg : StorageErr → String
  | .objectNotFound => "object not found"
  | .ioError m => m

/-- The observable world: the stored record for the image and counters of the
calls performed against the asset store and the metadata store. -/
structure WorldState where
  record : Option Image
  storageReads : Nat
  storageWrites : Nat
  recordUpdates : Nat
deriving DecidableEq, Repr

/-- Outcomes of the external calls one `ProcessImage` run can make:
`update1Ok` is the persist of the `processing` transition, `update2Ok` the
persist of the subsequent failure or completion mark. -/
structure ProcEnv where
  update1Ok : Bool
  update2Ok : Bool
  getOriginal : Option StorageErr
  decode : Option Img
  seekOk : Bool
  encodeOk : Bool
  encodedLen : Nat
  saveOk : Bool
  now : Nat
deriving DecidableEq, Repr

/-- `filepath.Join` on the simple relative components the storage backends
use (`saveFile` returns `filepath.Join(dir, filename)`). -/
def joinPath (dir filename : String) : String :=
  if dir = "" then filename else dir ++ "/" ++ filename

/-- The deterministic processed filename `{id}_{processingType}.jpg`. -/
def processedFilename (i : Image) : String :=
  i.id ++ "_" ++ i.processingType ++ ".jpg"

/-- The failure epilogue shared by every failure branch after the record
entered `processing`: mark the in-memory record failed and persist it
best-effort (the update's own error is discarded). -/
def markFailedUpdate (env : ProcEnv) (s : WorldState) (current : Image)
    (msg : String) : WorldState :=
  let failed := current.markAsFailed msg env.now
  { s with
    recordUpdates := s.recordUpdates + 1
    record := if env.update2Ok then some failed else s.record }

/-- Steps 7–9 of `ProcessImage`: validate the produced dimensions, encode,
save the bytes under `{id}_{processingType}.jpg`, and mark completion. -/
def saveStage (env : ProcEnv) (processedDir : String) (image processing : Image)
    (processed : Img) (s2 : WorldState) : WorldState × Except String Unit :=
  if processed.w = 0 ∨ processed.h = 0 then
    (markFailedUpdate env s2 processing "processed image is empty",
      .error "processed image is empty")
  else if ¬ env.encodeOk then
    (markFailedUpdate env s2 processing "encoding failed", .error "encode image")
  else if env.encodedLen = 0 then
    (markFailedUpdate env s2 processing "empty buffer after encoding",
      .error "empty buffer after encoding")
  else
    let s3 := { s2 with storageWrites := s2.storageWrites + 1 }
    if ¬ env.saveOk then
      (markFailedUpdate env s3 processing "failed to save processed file",
        .error "save processed file")
    else
      let path := joinPath processedDir (processedFilename image)
      let completed := processing.markAsCompleted path processed.w processed.h env.now
      let s4 := { s3 with
        recordUpdates := s3.recordUpdates + 1
        record := if env.update2Ok then some completed else s3.record }
      if ¬ env.update2Ok then (s4, .error "update status to completed")
      else (s4, .ok ())

/-- Steps 5–6 of `ProcessImage`: decode validation, seek, and the
transformation for the record's own processing type. -/
def transformStage (rotDims : Nat → Nat → Nat × Nat) (watermarkImg : Option Img)
    (cfg : ProcessingConfig) (processedDir : String) (env : ProcEnv)
    (image processing : Image) (s2 : WorldState) : WorldState × Except String Unit :=
  match env.decode with
  | none =>
    (markFailedUpdate env s2 processing "failed to decode original file",
      .error "decode original image")
  | some img =>
    if img.w = 0 ∨ img.h = 0 then
      (markFailedUpdate env s2 processing "original image is empty",
        .error "original image is empty")
    else if ¬ env.seekOk then
      (markFailedUpdate env s2 processing "failed to seek original file",
        .error "seek original file")
    else
      match Process rotDims watermarkImg cfg env.decode image.processingType with
      | .error m =>
        (markFailedUpdate env s2 processing ("processing failed: " ++ m),
          .error "process image")
      | .ok processed => saveStage env processedDir image processing processed s2

/-- Steps 3–4 of `ProcessImage`: persist the `processing` transition, then
fetch the original bytes. -/
def processAttempt (rotDims : Nat → Nat → Nat × Nat) (watermarkImg : Option Img)
    (cfg : ProcessingConfig) (processedDir : String) (env : ProcEnv)
    (image : Image) (s : WorldState) : WorldState × Except String Unit :=
  let processing := image.markAsProcessing env.now
  let s1 := { s with
    recordUpdates := s.recordUpdates + 1
    record := if env.update1Ok then some processing else s.record }
  if ¬ env.update1Ok then (s1, .error "update status to processing")
  else
    let s2 := { s1 with storageReads := s1.storageReads + 1 }
    match env.getOriginal with
    | some e =>
      (markFailedUpdate env s2 processing ("failed to get original file: " ++ e.msg),
        .error "get original file")
    | none => transformStage rotDims watermarkImg cfg processedDir env image processing s2

/-- `ProcessorUsecase.ProcessImage`: load the record, apply the status guard,
then run one processing attempt.  `processedDir` is the storage backend's
processed-files directory (its `SaveProcessed` returns
`filepath.Join(processedDir, filename)`), and the watermark rotation geometry
is the same oracle `Process` uses. -/
def processImage (rotDims : Nat → Nat → Nat × Nat) (watermarkImg : Option Img)
    (cfg : ProcessingConfig) (processedDir : String) (env : ProcEnv)
    (s : WorldState) : WorldState × Except String Unit :=
  match s.record with
  | none => (s, .error "find image")
  | some image =>
    if ¬ image.canBeProcessed then (s, .ok ())
    else processAttempt rotDims watermarkImg cfg processedDir env image s

/-! ## Ingestion usecase (usecase ImageUsecase: UploadImage / GetImageFile) -/

/-- Outcomes of the external calls `UploadImage` makes: the id generated by
`uuid.New()`, the asset-store save result (`some path` on success), the
metadata insert outcome, the compensating delete's own outcome (discarded by
the code), and the publish outcome. -/
structure UploadEnv where
  newId : String
  saveOriginalRes : Option String
  createOk : Bool
  deleteOk : Bool
  publishOk : Bool
  now : Nat

/-- The externally visible effects of one `UploadImage` call. -/
structure UploadEffects where
  deleteCalls : List String
  createdRecord : Option Image
  published : Bool
deriving DecidableEq, Repr

/-- The record `UploadImage` builds before inserting it. -/
def freshUpload (id filename originalPath mimeType : String) (size : Int)
    (pt : ProcessingType) (now : Nat) : Image :=
  { id := id
    originalFilename := filename
    originalPath := originalPath
    processedPath := ""
    mimeType := mimeType
    size := size
    width := 0
    height := 0
    status := .pending
    processingType := pt
    errorMessage := ""
    createdAt := now
    updatedAt := now
    processedAt := none }

/-- `ImageUsecase.UploadImage`: save the original, insert the record
(compensating with a best-effort delete of the original on insert failure),
then publish the task best-effort. -/
def uploadImage (env : UploadEnv) (filename mimeType : String) (size : Int)
    (pt : ProcessingType) : UploadEffects × Except String Image :=
  match env.saveOriginalRes with
  | none => (⟨[], none, false⟩, .error "save original")
  | some originalPath =>
    let image := freshUpload env.newId filename originalPath mimeType size pt env.now
    if ¬ env.createOk then
      (⟨[originalPath], none, false⟩, .error "create image")
    else
      (⟨[], some image, env.publishOk⟩, .ok image)

/-- `filepath.Ext`: the suffix of the last path element starting at its final
dot, empty when that element has no dot. -/
def filepathExt (s : String) : String :=
  let rev := s.data.reverse
  let pre := rev.takeWhile (fun c => c ≠ '.' ∧ c ≠ '/')
  match (rev.drop pre.length).head? with
  | some '.' => ⟨'.' :: pre.reverse⟩
  | _ => ""

/-- The original filename with its extension removed
(`OriginalFilename[:len-len(Ext(OriginalFilename))]`). -/
def trimExt (s : String) : String :=
  ⟨s.data.take (s.data.length - (filepathExt s).data.length)⟩

/-- The errors `GetImageFile` can surface. -/
inductive GetFileErr
  | recordNotFound
  | imageNotFound
  | notProcessedYet
  | storageFailure (e : StorageErr)
deriving DecidableEq, Repr

/-- Outcomes of the external calls `GetImageFile` makes. -/
structure GetFileEnv where
  record : Option Image
  getOriginalErr : Option StorageErr
  getProcessedErr : Option StorageErr
deriving DecidableEq, Repr

/-- `ImageUsecase.GetImageFile`, returning the stream (`none` embeds Go's
`nil` reader) and the download filename.  The `useOriginal` branch follows the
source exactly: a not-found storage error maps to the domain not-found error,
but any other storage error falls through to the final
`return file, filename, nil`. -/
def getImageFile (env : GetFileEnv) (useOriginal : Bool) :
    Except GetFileErr (Option Unit × String) :=
  match env.record with
  | none => .error .recordNotFound
  | some image =>
    if useOriginal then
      match env.getOriginalErr with
      | some .objectNotFound => .error .imageNotFound
      | some _ => .ok (none, image.originalFilename)
      | none => .ok (some (), image.originalFilename)
    else
      if ¬ image.isProcessed then .error .notProcessedYet
      else
        match env.getProcessedErr with
        | some .objectNotFound => .error .imageNotFound
        | some e => .error (.storageFailure e)
        | none =>
          let ext := filepathExt image.processedPath
          (.ok (some (),
            trimExt image.originalFilename ++ "_" ++ image.processingType ++ ext))

/-! ## Storage deletion (local.go `localStorage` / `s3Storage`) -/

/-- Outcome of the underlying filesystem/object removal for a path. -/
inductive RemoveOutcome
  | removed
  | notExist
  | failure (msg : String)
deriving DecidableEq, Repr

/-- `localStorage.Delete`: empty path and missing file are successful no-ops;
any other removal failure is returned. -/
def localDelete (remove : String → RemoveOutcome) (path : String) : Option String :=
  if path = "" then none
  else
    match remove path with
    | .removed => none
    | .notExist => none
    | .failure m => some ("delete file " ++ path ++ ": " ++ m)

/-- `s3Storage.Delete`: empty path is a successful no-op; a failing
`RemoveObject` is returned. -/
def s3Delete (remove : String → RemoveOutcome) (path : String) : Option String :=
  if path = "" then none
  else
    match remove path with
    | .removed => none
    | .notExist => none
    | .failure m => some ("remove object " ++ path ++ ": " ++ m)

/-- The `DeleteAll` body shared verbatim by both backends: delete the original,
then (for a non-empty processed path) delete the processed file, keeping
`lastErr` across both; returns the list of paths passed to `Delete` and the
final `lastErr`. -/
def deleteAllWith (del : String → Option String) (originalPath processedPath : String) :
    List String × Option String :=
  let e1 := del originalPath
  if processedPath ≠ "" then
    match del processedPath with
    | some e => ([originalPath, processedPath], some e)
    | none => ([originalPath, processedPath], e1)
  else ([originalPath], e1)

/-- `localStorage.DeleteAll`. -/
def localDeleteAll (remove : String → RemoveOutcome) (originalPath processedPath : String) :
    List String × Option String :=
  deleteAllWith (localDelete remove) originalPath processedPath

/-- `s3Storage.DeleteAll`. -/
def s3DeleteAll (remove : String → RemoveOutcome) (originalPath processedPath : String) :
    List String × Option String :=
  deleteAllWith (s3Delete remove) originalPath processedPath

/-! ## Reachable record states (C3)

The records reachable from a fresh upload by the lifecycle operations: the
upload itself, whole `ProcessImage` attempts under arbitrary external
outcomes, and deletion. -/

/-- The fixed collaborators a deployment wires into the worker. -/
structure SysEnv where
  rotDims : Nat → Nat → Nat × Nat
  watermarkImg : Option Img
  cfg : ProcessingConfig
  processedDir : String

/-- World states reachable from a fresh upload via `ProcessImage` attempts and
record deletion. -/
inductive ReachableRecord (se : SysEnv) : WorldState → Prop
  | upload (id filename originalPath mimeType : String) (size : Int)
      (pt : ProcessingType) (now : Nat) :
      ReachableRecord se
        ⟨some (freshUpload id filename originalPath mimeType size pt now), 0, 0, 0⟩
  | step (env : ProcEnv) (s : WorldState) (h : ReachableRecord se s) :
      ReachableRecord se
        (processImage se.rotDims se.watermarkImg se.cfg se.processedDir env s).1
  | deleteRecord (s : WorldState) (h : ReachableRecord se s) :
      ReachableRecord se { s with record := none }

/-! ## The state invariant claimed for records (C3) -/

/-- The invariant actually maintained by the lifecycle operations: the
processed path is set exactly on completed records, a non-empty error message
implies the record failed or is inside a (retry) processing attempt, and
completion clears the message. -/
def RecordInvariant (r : Image) : Prop :=
  (r.status = .completed → r.processedPath ≠ "") ∧
  (r.status ≠ .completed → r.processedPath = "") ∧
  (r.errorMessage ≠ "" → r.status = .failed ∨ r.status = .processing) ∧
  (r.status = .completed → r.errorMessage = "")

/-! ## Concrete fixtures used by witnesses and counterexamples -/

/-- A representative processing configuration (the documented defaults). -/
def cfg0 : ProcessingConfig := ⟨800, 600, 200, 150, 77⟩

/-- A concrete rotation-geometry oracle. -/
def rot0 : Nat → Nat → Nat × Nat := fun a b => (a + b, a + b)

/-- A concrete deployment environment for the worker. -/
def se0 : SysEnv := ⟨rot0, none, cfg0, "processed"⟩

/-- A concrete completed record. -/
def sampleCompleted : Image :=
  { id := "id1"
    originalFilename := "cat.png"
    originalPath := "original/id1.png"
    processedPath := "processed/id1_resize.jpg"
    mimeType := "image/png"
    size := 12345
    width := 640
    height := 480
    status := .completed
    processingType := processingResize
    errorMessage := ""
    createdAt := 10
    updatedAt := 20
    processedAt := some 20 }

/-- A concrete pending record as produced by a fresh upload. -/
def samplePending : Image :=
  freshUpload "id2" "dog.jpeg" "original/id2.jpeg" "image/jpeg" 999 processingResize 5

/-- The world right after uploading `samplePending`. -/
def upState0 : WorldState := ⟨some samplePending, 0, 0, 0⟩

/-- An environment in which fetching the original bytes fails and every
record update persists. -/
def envGetFail1 : ProcEnv :=
  { update1Ok := true
    update2Ok := true
    getOriginal := some (.ioError "io")
    decode := none
    seekOk := true
    encodeOk := true
    encodedLen := 1
    saveOk := true
    now := 6 }

/-- An environment in which fetching the original bytes fails and the
best-effort failure update also fails, stranding the `processing` status. -/
def envGetFail2 : ProcEnv :=
  { update1Ok := true
    update2Ok := false
    getOriginal := some (.ioError "io")
    decode := none
    seekOk := true
    encodeOk := true
    encodedLen := 1
    saveOk := true
    now := 7 }

/-- A fully successful processing environment. -/
def envAllOk : ProcEnv :=
  { update1Ok := true
    update2Ok := true
    getOriginal := none
    decode := some ⟨640, 480⟩
    seekOk := true
    encodeOk := true
    encodedLen := 1024
    saveOk := true
    now := 8 }

/-- An upload environment whose metadata insert fails. -/
def envInsertFail : UploadEnv := ⟨"id9", some "original/id9.png", false, true, false, 3⟩

/-- A pending record carrying a processing type outside the known set. -/
def sampleMirror : Image := { samplePending with processingType := "mirror" }

/-- The world holding `sampleMirror`. -/
def mirrorState : WorldState := ⟨some sampleMirror, 0, 0, 0⟩

/-! ## Helper lemmas -/

/-- Overlay compositing never changes the canvas: folding overlays over any
position list returns the initial canvas. -/
theorem foldl_overlay_const (l : List (Int × Int)) (fg : Img) (op : ℚ) (init : Img) :
    l.foldl (fun acc p => overlayDims acc fg p op) init = init := by
  induction l generalizing init with
  | nil => rfl
  | cons a l ih => simp [List.foldl, overlayDims, ih]

/-- Appending to a non-empty string on the left keeps it non-empty. -/
theorem append_ne_empty_left (s t : String) (h : s ≠ "") : s ++ t ≠ "" := by
  intro he
  apply h
  have hd : (s ++ t).data = [] := by rw [he]
  rw [String.data_append] at hd
  exact String.ext (by simpa using (List.append_eq_nil.mp hd).1)

/-- Appending to a non-empty string on the right keeps it non-empty. -/
theorem append_ne_empty_right (s t : String) (h : t ≠ "") : s ++ t ≠ "" := by
  intro he
  apply h
  have hd : (s ++ t).data = [] := by rw [he]
  rw [String.data_append] at hd
  exact String.ext (by simpa using (List.append_eq_nil.mp hd).2)

/-- The binary-search loop stays inside a valid bracket and lands on the floor
square root. -/
theorem sqrtGo_spec (n : Nat) : ∀ (fuel lo hi : Nat), lo * lo ≤ n → n < hi * hi →
    hi ≤ lo + fuel →
    sqrtGo n fuel lo hi * sqrtGo n fuel lo hi ≤ n ∧
    n < (sqrtGo n fuel lo hi + 1) * (sqrtGo n fuel lo hi + 1) := by
  intro fuel
  induction fuel with
  | zero =>
    intro lo hi hlo hhi hfuel
    exfalso
    have hlt : lo < hi := by
      by_contra hge
      push_neg at hge
      have := Nat.mul_le_mul hge hge
      omega
    omega
  | succ fuel ih =>
    intro lo hi hlo hhi hfuel
    simp only [sqrtGo]
    split
    · rename_i hle
      have hlt : lo < hi := by
        by_contra hge
        push_neg at hge
        have := Nat.mul_le_mul hge hge
        omega
      have heq : hi = lo + 1 := by omega
      exact ⟨hlo, heq ▸ hhi⟩
    · rename_i hgt
      split
      · rename_i hmid
        exact ih ((lo + hi) / 2) hi hmid hhi (by omega)
      · rename_i hmid
        exact ih lo ((lo + hi) / 2) hlo (by omega) (by omega)

/-- `isqrt` is the floor square root. -/
theorem isqrt_spec (n : Nat) :
    isqrt n * isqrt n ≤ n ∧ n < (isqrt n + 1) * (isqrt n + 1) := by
  unfold isqrt
  apply sqrtGo_spec n (n + 1) 0 (n + 1)
  · simp
  · have h1 : n + 1 ≤ (n + 1) * (n + 1) := Nat.le_mul_of_pos_left _ (by omega)
    omega
  · omega

/-- The tile count is always at least 1 (in fact at least 2). -/
theorem wmCount_pos (width height rotW : Nat) : 1 ≤ wmCount width height rotW := by
  simp only [wmCount]
  generalize wmDiagLen width height rotW / wmStep rotW = q
  split <;> omega

/-- The scaled dimension computed by `resizeDims` for a zero/nonzero aspect
quotient, abstracted over its numeric inputs: positivity, the one-source-pixel
aspect bound, and the bound by any box the exact value fits under.  (`a` is
the product `fixed·other`, `b` the divisor source dimension.) -/
theorem aspect_dim_spec (a b d : Nat) (hb : 0 < b) (ha : 0 < a)
    (hd : d = if a / b = 0 then max 1 ((2 * a + b) / (2 * b)) else a / b) :
    0 < d ∧ ((a : Int) - (d : Int) * b).natAbs < b ∧
    (∀ B, 0 < B → a ≤ b * B → d ≤ B) := by
  subst hd
  by_cases h0 : a / b = 0
  · rw [if_pos h0]
    have hlt : a < b := by
      by_contra hge
      have h1 : 1 ≤ a / b := (Nat.one_le_div_iff hb).mpr (by omega)
      omega
    have hq : (2 * a + b) / (2 * b) < 2 := by
      rw [Nat.div_lt_iff_lt_mul (by omega)]
      omega
    rw [Nat.max_eq_left (by omega : (2 * a + b) / (2 * b) ≤ 1)]
    exact ⟨one_pos, by omega, fun B hB _ => hB⟩
  · rw [if_neg h0]
    have hmod : b * (a / b) + a % b = a := Nat.div_add_mod _ _
    have hmlt : a % b < b := Nat.mod_lt _ hb
    have hcast : ((b * (a / b) : Nat) : Int) = ((a / b : Nat) : Int) * b := by
      push_cast
      ring
    refine ⟨Nat.pos_of_ne_zero h0, by omega, ?_⟩
    intro B hB hle
    calc a / b ≤ b * B / b := Nat.div_le_div_right hle
      _ = B := Nat.mul_div_cancel_left B hb

/-- Value of `resizeDims` when the target width is fixed and the height is the
aspect quotient. -/
theorem resizeDims_fixedW (srcW srcH W : Nat) (hw : 0 < srcW) (hh : 0 < srcH)
    (hW : 0 < W) :
    resizeDims srcW srcH W (W * srcH / srcW) =
      (W, if W * srcH / srcW = 0 then max 1 ((2 * (W * srcH) + srcW) / (2 * srcW))
          else W * srcH / srcW) := by
  simp only [resizeDims]
  rw [if_neg (fun hc => absurd hc.1 (by omega)),
    if_neg (fun hc => hc.elim (fun h => by omega) (fun h => by omega)),
    if_neg (by omega : ¬ W = 0)]
  have hassoc : 2 * W * srcH = 2 * (W * srcH) := by ring
  rw [hassoc]

/-- Value of `resizeDims` when the target height is fixed and the width is the
aspect quotient. -/
theorem resizeDims_fixedH (srcW srcH H : Nat) (hw : 0 < srcW) (hh : 0 < srcH)
    (hH : 0 < H) :
    resizeDims srcW srcH (H * srcW / srcH) H =
      ((if H * srcW / srcH = 0 then max 1 ((2 * (H * srcW) + srcH) / (2 * srcH))
        else H * srcW / srcH), H) := by
  simp only [resizeDims]
  rw [if_neg (fun hc => absurd hc.2 (by omega)),
    if_neg (fun hc => hc.elim (fun h => by omega) (fun h => by omega)),
    if_neg (by omega : ¬ H = 0)]
  have hassoc : 2 * H * srcW = 2 * (H * srcW) := by ring
  rw [hassoc]

/-- Aspect-scaling half of `resizeDims` when the target width is fixed: the
width is kept, the height is positive, within one source-pixel of the exact
proportional value, and bounded by any box the exact value fits in. -/
theorem resizeDims_aspect_h (srcW srcH W : Nat) (hw : 0 < srcW) (hh : 0 < srcH)
    (hW : 0 < W) :
    (resizeDims srcW srcH W (W * srcH / srcW)).1 = W ∧
    0 < (resizeDims srcW srcH W (W * srcH / srcW)).2 ∧
    ((W : Int) * srcH -
      ((resizeDims srcW srcH W (W * srcH / srcW)).2 : Int) * srcW).natAbs < srcW ∧
    (∀ B, 0 < B → W * srcH ≤ srcW * B →
      (resizeDims srcW srcH W (W * srcH / srcW)).2 ≤ B) := by
  rw [resizeDims_fixedW srcW srcH W hw hh hW]
  obtain ⟨p1, p2, p3⟩ := aspect_dim_spec (W * srcH) srcW _ hw (Nat.mul_pos hW hh) rfl
  have hcast : ((W * srcH : Nat) : Int) = (W : Int) * srcH := by
    push_cast
    ring
  exact ⟨rfl, p1, by rw [← hcast]; exact p2, p3⟩

/-- Aspect-scaling half of `resizeDims` when the target height is fixed. -/
theorem resizeDims_aspect_w (srcW srcH H : Nat) (hw : 0 < srcW) (hh : 0 < srcH)
    (hH : 0 < H) :
    (resizeDims srcW srcH (H * srcW / srcH) H).2 = H ∧
    0 < (resizeDims srcW srcH (H * srcW / srcH) H).1 ∧
    (((resizeDims srcW srcH (H * srcW / srcH) H).1 : Int) * srcH -
      (H : Int) * srcW).natAbs < srcH ∧
    (∀ B, 0 < B → H * srcW ≤ srcH * B →
      (resizeDims srcW srcH (H * srcW / srcH) H).1 ≤ B) := by
  rw [resizeDims_fixedH srcW srcH H hw hh hH]
  obtain ⟨p1, p2, p3⟩ := aspect_dim_spec (H * srcW) srcH _ hh (Nat.mul_pos hH hw) rfl
  have hcast : ((H * srcW : Nat) : Int) = (H : Int) * srcW := by
    push_cast
    ring
  refine ⟨rfl, p1, ?_, p3⟩
  rw [← hcast]
  have : ∀ x y : Int, (x - y).natAbs = (y - x).natAbs := fun x y => by
    rw [← Int.natAbs_neg]
    congr 1
    ring
  rw [this]
  exact p2

/-- Full dimensional specification of `imaging.Fit` on positive inputs. -/
theorem fitDims_spec (srcW srcH maxW maxH : Nat) (hw : 0 < srcW) (hh : 0 < srcH)
    (hbw : 0 < maxW) (hbh : 0 < maxH) :
    0 < (fitDims srcW srcH maxW maxH).1 ∧
    0 < (fitDims srcW srcH maxW maxH).2 ∧
    (fitDims srcW srcH maxW maxH).1 ≤ maxW ∧
    (fitDims srcW srcH maxW maxH).2 ≤ maxH ∧
    (srcW ≤ maxW ∧ srcH ≤ maxH → fitDims srcW srcH maxW maxH = (srcW, srcH)) ∧
    (¬(srcW ≤ maxW ∧ srcH ≤ maxH) →
      if maxW * srcH < srcW * maxH then (fitDims srcW srcH maxW maxH).1 = maxW
      else (fitDims srcW srcH maxW maxH).2 = maxH) ∧
    (((fitDims srcW srcH maxW maxH).1 : Int) * srcH -
      ((fitDims srcW srcH maxW maxH).2 : Int) * srcW).natAbs < max srcW srcH := by
  unfold fitDims
  rw [if_neg (by omega), if_neg (by omega)]
  by_cases hfit : srcW ≤ maxW ∧ srcH ≤ maxH
  · rw [if_pos hfit]
    refine ⟨hw, hh, hfit.1, hfit.2, fun _ => rfl, fun hc => absurd hfit hc, ?_⟩
    have : ((srcW : Int) * srcH - (srcH : Int) * srcW) = 0 := by ring
    rw [this]
    simp only [Int.natAbs_zero]
    omega
  · rw [if_neg hfit]
    by_cases hasp : srcW * maxH > maxW * srcH
    · rw [if_pos hasp]
      obtain ⟨e1, e2, e3, e4⟩ := resizeDims_aspect_h srcW srcH maxW hw hh hbw
      have hle : maxW * srcH ≤ srcW * maxH := le_of_lt hasp
      refine ⟨by omega, e2, le_of_eq e1, e4 maxH hbh hle, fun hc => absurd hc hfit,
        fun _ => ?_, ?_⟩
      · rw [if_pos hasp]
        exact e1
      · rw [e1]
        exact lt_of_lt_of_le e3 (le_max_left srcW srcH)
    · rw [if_neg hasp]
      obtain ⟨e1, e2, e3, e4⟩ := resizeDims_aspect_w srcW srcH maxH hw hh hbh
      have hle : maxH * srcW ≤ srcH * maxW := by
        have : srcW * maxH ≤ maxW * srcH := by omega
        calc maxH * srcW = srcW * maxH := by ring
          _ ≤ maxW * srcH := this
          _ = srcH * maxW := by ring
      refine ⟨e2, by omega, e4 maxW hbw hle, le_of_eq e1, fun hc => absurd hc hfit,
        fun _ => ?_, ?_⟩
      · rw [if_neg hasp]
        exact e1
      · rw [e1]
        exact lt_of_lt_of_le e3 (le_max_right srcW srcH)

/-- A completed record does not pass the worker's status guard. -/
theorem canBeProcessed_completed_false (r : Image) (h : r.status = .completed) :
    r.canBeProcessed = false := by
  simp [Image.canBeProcessed, h]

/-- The guard branch: when the record cannot be processed, `processImage`
returns success and changes nothing. -/
theorem processImage_noop (rotDims : Nat → Nat → Nat × Nat) (watermarkImg : Option Img)
    (cfg : ProcessingConfig) (processedDir : String) (env : ProcEnv) (s : WorldState)
    (r : Image) (hrec : s.record = some r) (hcan : r.canBeProcessed = false) :
    processImage rotDims watermarkImg cfg processedDir env s = (s, .ok ()) := by
  unfold processImage
  rw [hrec]
  simp [hcan]

/-! ## C10 -/

/-- C10: MarkAsFailed sets exactly status, error_message and updated_at; every
other field of the record — processed_path, width, height, processed_at, and
the creation-time fields — is left unchanged. -/
theorem markAsFailed_frame (i : Image) (errMsg : String) (now : Nat) :
    (i.markAsFailed errMsg now).status = .failed ∧
    (i.markAsFailed errMsg now).errorMessage = errMsg ∧
    (i.markAsFailed errMsg now).updatedAt = now ∧
    (i.markAsFailed errMsg now).id = i.id ∧
    (i.markAsFailed errMsg now).originalFilename = i.originalFilename ∧
    (i.markAsFailed errMsg now).originalPath = i.originalPath ∧
    (i.markAsFailed errMsg now).processedPath = i.processedPath ∧
    (i.markAsFailed errMsg now).mimeType = i.mimeType ∧
    (i.markAsFailed errMsg now).size = i.size ∧
    (i.markAsFailed errMsg now).width = i.width ∧
    (i.markAsFailed errMsg now).height = i.height ∧
    (i.markAsFailed errMsg now).processingType = i.processingType ∧
    (i.markAsFailed errMsg now).createdAt = i.createdAt ∧
    (i.markAsFailed errMsg now).processedAt = i.processedAt := by
  repeat' constructor

/-! ## C2 -/

/-- C2: for a stored record whose status is outside {pending, failed} —
in particular completed — `ProcessImage` returns success without touching the
asset store or updating the record; consequently a second invocation on a
record left completed by a first invocation changes nothing and performs zero
storage writes. -/
theorem processImage_idempotent_on_completed
    (rotDims : Nat → Nat → Nat × Nat) (watermarkImg : Option Img)
    (cfg : ProcessingConfig) (processedDir : String) :
    (∀ (env : ProcEnv) (s : WorldState) (r : Image),
      s.record = some r → r.canBeProcessed = false →
      processImage rotDims watermarkImg cfg processedDir env s = (s, .ok ())) ∧
    (∀ (env1 env2 : ProcEnv) (s s' : WorldState) (r' : Image),
      processImage rotDims watermarkImg cfg processedDir env1 s = (s', .ok ()) →
      s'.record = some r' → r'.status = .completed →
      processImage rotDims watermarkImg cfg processedDir env2 s' = (s', .ok ())) := by
  constructor
  · intro env s r hrec hcan
    exact processImage_noop rotDims watermarkImg cfg processedDir env s r hrec hcan
  · intro env1 env2 s s' r' _h1 hrec hst
    exact processImage_noop rotDims watermarkImg cfg processedDir env2 s' r' hrec
      (canBeProcessed_completed_false r' hst)

/-- Witness for C2 at a concrete completed record and environment. -/
theorem processImage_idempotent_on_completed_witness :
    processImage rot0 none cfg0 "processed" envAllOk ⟨some sampleCompleted, 3, 4, 5⟩ =
      (⟨some sampleCompleted, 3, 4, 5⟩, .ok ()) :=
  (processImage_idempotent_on_completed rot0 none cfg0 "processed").1 envAllOk
    ⟨some sampleCompleted, 3, 4, 5⟩ sampleCompleted rfl (by decide)

/-! ## C8 -/

/-- C8: the watermark operation returns an image with exactly the input's
width and height, both when a watermark is configured (clone plus overlay
compositing keeps the canvas bounds) and when none is (the input is returned
as-is). -/
theorem watermark_preserves_dimensions (rotDims : Nat → Nat → Nat × Nat)
    (watermarkImg : Option Img) (cfg : ProcessingConfig) (img : Img) :
    watermark rotDims watermarkImg cfg img = img := by
  cases watermarkImg with
  | none => rfl
  | some wm =>
    unfold watermark
    by_cases h : wm.w = 0 ∨ wm.h = 0
    · simp [h]
    · simp [h, cloneDims, foldl_overlay_const]

/-! ## C7 -/

/-- C7: when saving the original bytes succeeds but the metadata insert fails,
UploadImage attempts to delete the just-written original (the deletion's own
outcome being ignored) and returns the insert error with no record. -/
theorem uploadImage_compensates_on_insert_failure (env : UploadEnv)
    (filename mimeType : String) (size : Int) (pt : ProcessingType) (path : String)
    (hsave : env.saveOriginalRes = some path) (hins : env.createOk = false) :
    uploadImage env filename mimeType size pt =
      (⟨[path], none, false⟩, .error "create image") ∧
    (∀ b1 b2 : Bool,
      uploadImage { env with deleteOk := b1 } filename mimeType size pt =
        uploadImage { env with deleteOk := b2 } filename mimeType size pt) := by
  constructor
  · unfold uploadImage
    rw [hsave]
    simp [hins]
  · intro b1 b2
    rfl

/-- Witness for C7 at a concrete failing insert. -/
theorem uploadImage_compensates_on_insert_failure_witness :
    uploadImage envInsertFail "x.png" "image/png" 5 processingResize =
      (⟨["original/id9.png"], none, false⟩, .error "create image") :=
  (uploadImage_compensates_on_insert_failure envInsertFail "x.png" "image/png" 5
    processingResize "original/id9.png" rfl rfl).1

/-! ## C6 -/

/-- C6: `GetImageFile(id, useOriginal=true)` fetches the original regardless
of status and maps a missing object to the domain not-found error, but — the
bug — a storage failure for any other reason is swallowed: the function
returns success carrying a nil stream instead of the I/O error. -/
theorem getImageFile_swallows_transport_error :
    getImageFile ⟨some sampleCompleted, some (.ioError "connection reset"), none⟩ true =
      .ok (none, "cat.png") ∧
    getImageFile ⟨some sampleCompleted, some .objectNotFound, none⟩ true =
      .error .imageNotFound ∧
    getImageFile ⟨some samplePending, none, none⟩ true = .ok (some (), "dog.jpeg") ∧
    getImageFile ⟨some sampleCompleted, none, none⟩ true = .ok (some (), "cat.png") :=
  ⟨rfl, rfl, rfl, rfl⟩

/-! ## C5 -/

/-- C5 counterexample: with both deletions failing, DeleteAll (both backends)
returns the second error encountered, not the first. -/
theorem deleteAll_returns_second_error :
    (localDeleteAll (fun _ => .failure "io") "a" "b").2 = some "delete file b: io" ∧
    (localDeleteAll (fun _ => .failure "io") "a" "b").1 = ["a", "b"] ∧
    some "delete file b: io" ≠ some "delete file a: io" ∧
    (s3DeleteAll (fun _ => .failure "io") "a" "b").2 = some "remove object b: io" ∧
    some "remove object b: io" ≠ some "remove object a: io" := by
  decide

/-- C5 amended: DeleteAll attempts both paths even when the first deletion
fails, and when at least one deletion fails it returns the LAST error
encountered; both backends share this behavior. -/
theorem deleteAll_attempts_both_returns_last (del : String → Option String)
    (o p : String) :
    o ∈ (deleteAllWith del o p).1 ∧
    (p ≠ "" → p ∈ (deleteAllWith del o p).1) ∧
    ((deleteAllWith del o p).2 = none ↔ ∀ q ∈ (deleteAllWith del o p).1, del q = none) ∧
    (∀ e1 e2, p ≠ "" → del o = some e1 → del p = some e2 →
      (deleteAllWith del o p).2 = some e2) ∧
    (∀ remove o' p', localDeleteAll remove o' p' = deleteAllWith (localDelete remove) o' p') ∧
    (∀ remove o' p', s3DeleteAll remove o' p' = deleteAllWith (s3Delete remove) o' p') := by
  have h1 : o ∈ (deleteAllWith del o p).1 := by
    unfold deleteAllWith
    by_cases hp : p = ""
    · simp [hp]
    · cases hdp : del p <;> simp [hp, hdp]
  have h2 : p ≠ "" → p ∈ (deleteAllWith del o p).1 := by
    intro hp
    unfold deleteAllWith
    cases hdp : del p <;> simp [hp, hdp]
  have h3 : (deleteAllWith del o p).2 = none ↔
      ∀ q ∈ (deleteAllWith del o p).1, del q = none := by
    unfold deleteAllWith
    by_cases hp : p = ""
    · simp [hp]
    · cases hdp : del p <;> simp [hp, hdp]
  have h4 : ∀ e1 e2, p ≠ "" → del o = some e1 → del p = some e2 →
      (deleteAllWith del o p).2 = some e2 := by
    intro e1 e2 hp hdo hdp
    unfold deleteAllWith
    simp [hp, hdp]
  exact ⟨h1, h2, h3, h4, fun _ _ _ => rfl, fun _ _ _ => rfl⟩

/-- Witness for C5 amended at concrete paths with both deletes failing. -/
theorem deleteAll_attempts_both_returns_last_witness :
    ("a" : String) ∈ (deleteAllWith (fun q => some q) "a" "b").1 ∧
    ("b" : String) ∈ (deleteAllWith (fun q => some q) "a" "b").1 ∧
    (deleteAllWith (fun q => some q) "a" "b").2 = some "b" := by
  have h := deleteAll_attempts_both_returns_last (fun q => some q) "a" "b"
  exact ⟨h.1, h.2.1 (by decide), h.2.2.2.1 "a" "b" (by decide) rfl rfl⟩

/-! ## C9 -/

/-- C9: for a processing type outside {resize, thumbnail, watermark}, the
engine's Process returns the "unknown processing type" error on any decodable
input, and a ProcessImage attempt that reaches the transformation marks the
record failed with a non-empty error message and returns an error. -/
theorem process_unknown_type_marks_failed
    (rotDims : Nat → Nat → Nat × Nat) (watermarkImg : Option Img)
    (cfg : ProcessingConfig) (processedDir : String) (env : ProcEnv) (s : WorldState)
    (r : Image) (img : Img) (pt : ProcessingType)
    (hrec : s.record = some r) (hpt : r.processingType = pt)
    (h1 : pt ≠ processingResize) (h2 : pt ≠ processingThumbnail)
    (h3 : pt ≠ processingWatermark) (hcan : r.canBeProcessed = true)
    (hu1 : env.update1Ok = true) (hu2 : env.update2Ok = true)
    (hget : env.getOriginal = none) (hdec : env.decode = some img)
    (hw : ¬ img.w = 0) (hh : ¬ img.h = 0) (hseek : env.seekOk = true) :
    Process rotDims watermarkImg cfg env.decode pt =
      .error ("unknown processing type: " ++ pt) ∧
    ∃ r', (processImage rotDims watermarkImg cfg processedDir env s).1.record = some r' ∧
      r'.status = .failed ∧ r'.errorMessage ≠ "" ∧
      (processImage rotDims watermarkImg cfg processedDir env s).2 =
        .error "process image" := by
  have hproc : Process rotDims watermarkImg cfg (some img) pt =
      .error ("unknown processing type: " ++ pt) := by
    unfold Process
    simp [hw, hh, h1, h2, h3]
  constructor
  · rw [hdec]
    exact hproc
  · unfold processImage processAttempt transformStage markFailedUpdate
    rw [hrec]
    simp [hcan, hu1, hu2, hget, hdec, hseek, hpt, hproc, hw, hh]
    exact ⟨rfl, append_ne_empty_left "processing failed: " _ (by decide)⟩

/-- Witness for C9 at the concrete type "mirror". -/
theorem process_unknown_type_marks_failed_witness :
    Process rot0 none cfg0 envAllOk.decode "mirror" =
      .error ("unknown processing type: " ++ "mirror") ∧
    ∃ r', (processImage rot0 none cfg0 "processed" envAllOk mirrorState).1.record =
        some r' ∧
      r'.status = .failed ∧ r'.errorMessage ≠ "" ∧
      (processImage rot0 none cfg0 "processed" envAllOk mirrorState).2 =
        .error "process image" :=
  process_unknown_type_marks_failed rot0 none cfg0 "processed" envAllOk mirrorState
    sampleMirror ⟨640, 480⟩ "mirror" rfl rfl (by decide) (by decide) (by decide)
    (by decide) rfl rfl rfl rfl (by decide) (by decide) rfl

/-! ## C1 -/

/-- C1 counterexample: at width 30, height 40, rotated width 30, the tile
count computed by the code differs from the claim's `count = diag/step + 2`
with `step = rotatedWidth/2 + 20` — the code strides by
`rotatedWidth + spacing`. -/
theorem wmCount_not_spec_formula :
    wmCount 30 40 30 = 3 ∧ wmCountClaimed 30 40 30 = 4 ∧
    wmCount 30 40 30 ≠ wmCountClaimed 30 40 30 ∧
    (wmPositions 30 40 30 30).length ≠ wmCountClaimed 30 40 30 + 1 := by
  decide

/-- C1 amended: the watermark scales to width/4 with a 10px minimum, uses the
configured opacity normalized to [0,1], and composites at positions linearly
interpolated from (-rotW, -rotH) to (width, height) with t = i/count for i in
0..count — but `count = diag/step + 2` uses the stride
`step = rotatedWidth + spacing` with `spacing = max(rotatedWidth/2 + 20, 10)`,
not `step = rotatedWidth/2 + 20` as claimed. -/
theorem watermark_tiling_amended (width height rotW rotH : Nat) (opacityCfg : Int)
    (i : Nat) (hi : i ≤ wmCount width height rotW) :
    10 ≤ wmTargetWidth width ∧
    (40 ≤ width → wmTargetWidth width = width / 4) ∧
    0 ≤ wmOpacity opacityCfg ∧ wmOpacity opacityCfg ≤ 1 ∧
    (0 ≤ opacityCfg → opacityCfg ≤ 255 → wmOpacity opacityCfg = (opacityCfg : ℚ) / 255) ∧
    wmCount width height rotW =
      wmDiagLen width height rotW / (rotW + max (rotW / 2 + 20) 10) + 2 ∧
    (wmPositions width height rotW rotH).length = wmCount width height rotW + 1 ∧
    (wmPositions width height rotW rotH)[i]? =
      some (wmPos width height rotW rotH (wmCount width height rotW) i) ∧
    wmPos width height rotW rotH (wmCount width height rotW) 0 =
      (-(rotW : Int), -(rotH : Int)) ∧
    wmPos width height rotW rotH (wmCount width height rotW)
      (wmCount width height rotW) = ((width : Int), (height : Int)) := by
  have hcpos := wmCount_pos width height rotW
  have hc0 : (wmCount width height rotW : Int) ≠ 0 :=
    ne_of_gt (by exact_mod_cast hcpos)
  constructor
  · unfold wmTargetWidth
    split <;> omega
  constructor
  · intro h
    unfold wmTargetWidth
    split <;> omega
  have hop : 0 ≤ wmOpacity opacityCfg ∧ wmOpacity opacityCfg ≤ 1 := by
    simp only [wmOpacity]
    split
    · exact ⟨le_refl 0, by norm_num⟩
    · split
      · exact ⟨by norm_num, le_refl 1⟩
      · constructor <;> linarith
  refine ⟨hop.1, hop.2, ?_, ?_, ?_, ?_, ?_, ?_⟩
  · intro h0 h255
    simp only [wmOpacity]
    have hge : (0 : ℚ) ≤ (opacityCfg : ℚ) / 255 := by
      apply div_nonneg _ (by norm_num)
      exact_mod_cast h0
    have hle : (opacityCfg : ℚ) / 255 ≤ 1 := by
      rw [div_le_one (by norm_num)]
      exact_mod_cast h255
    rw [if_neg (by linarith), if_neg (by linarith)]
  · have hsp : wmSpacing rotW = rotW / 2 + 20 := by
      unfold wmSpacing
      split <;> omega
    have hmax : max (rotW / 2 + 20) 10 = rotW / 2 + 20 :=
      Nat.max_eq_left (by omega)
    simp only [wmCount, wmStep]
    rw [hsp, hmax]
    generalize wmDiagLen width height rotW / (rotW + (rotW / 2 + 20)) = q
    split <;> omega
  · unfold wmPositions
    rw [List.length_map, List.length_range]
  · unfold wmPositions
    rw [List.getElem?_map, List.getElem?_range (by omega)]
    rfl
  · unfold wmPos wmLerp
    simp only [Nat.cast_zero, sub_zero, zero_mul, add_zero, Nat.cast_ofNat]
    rw [Int.mul_tdiv_cancel_left _ hc0, Int.mul_tdiv_cancel_left _ hc0]
  · unfold wmPos wmLerp
    simp only [sub_self, zero_mul, zero_add]
    rw [Int.mul_tdiv_cancel_left _ hc0, Int.mul_tdiv_cancel_left _ hc0]

/-- Witness for C1 amended at width 30, height 40, rotated box 30×30,
opacity 77, tile index 1. -/
theorem watermark_tiling_amended_witness :
    10 ≤ wmTargetWidth 30 ∧
    (40 ≤ 30 → wmTargetWidth 30 = 30 / 4) ∧
    0 ≤ wmOpacity 77 ∧ wmOpacity 77 ≤ 1 ∧
    (0 ≤ (77 : Int) → (77 : Int) ≤ 255 → wmOpacity 77 = (77 : ℚ) / 255) ∧
    wmCount 30 40 30 = wmDiagLen 30 40 30 / (30 + max (30 / 2 + 20) 10) + 2 ∧
    (wmPositions 30 40 30 30).length = wmCount 30 40 30 + 1 ∧
    (wmPositions 30 40 30 30)[1]? = some (wmPos 30 40 30 30 (wmCount 30 40 30) 1) ∧
    wmPos 30 40 30 30 (wmCount 30 40 30) 0 = (-(30 : Int), -(30 : Int)) ∧
    wmPos 30 40 30 30 (wmCount 30 40 30) (wmCount 30 40 30) = ((30 : Int), (40 : Int)) :=
  watermark_tiling_amended 30 40 30 30 77 1 (wmCount_pos 30 40 30)

/-! ## C4 -/

/-- C4 counterexample: a 50×50 image resized into the default 800×600 box is
returned at 50×50 — the relatively longer dimension (height, since
50·600 ≤ 800·50) does not equal the box's corresponding dimension 600,
because `imaging.Fit` never upscales an image that already fits the box. -/
theorem resize_no_upscale_counterexample :
    resize cfg0 ⟨50, 50⟩ = ⟨50, 50⟩ ∧
    (50 * 600 : Nat) ≤ 800 * 50 ∧
    (resize cfg0 ⟨50, 50⟩).h ≠ 600 := by
  decide

/-- C4 amended: resize (and identically thumbnail) fits into the configured
box without exceeding either dimension and preserves aspect within one source
pixel; the relatively longer dimension equals the box's corresponding
dimension only when the input does not already fit inside the box — an input
that already fits is returned unchanged (never upscaled); a non-positive
configured box returns the image unchanged. -/
theorem resize_fit_amended (cfg : ProcessingConfig) (img : Img)
    (hw : 0 < img.w) (hh : 0 < img.h) :
    (∀ other : Img, thumbnail cfg other =
      resize { cfg with
        resizeWidth := cfg.thumbnailWidth
        resizeHeight := cfg.thumbnailHeight } other) ∧
    (cfg.resizeWidth ≤ 0 ∨ cfg.resizeHeight ≤ 0 → resize cfg img = img) ∧
    (0 < cfg.resizeWidth → 0 < cfg.resizeHeight →
      (resize cfg img).w ≤ cfg.resizeWidth.toNat ∧
      (resize cfg img).h ≤ cfg.resizeHeight.toNat ∧
      (img.w ≤ cfg.resizeWidth.toNat ∧ img.h ≤ cfg.resizeHeight.toNat →
        resize cfg img = img) ∧
      (¬(img.w ≤ cfg.resizeWidth.toNat ∧ img.h ≤ cfg.resizeHeight.toNat) →
        if cfg.resizeWidth.toNat * img.h < img.w * cfg.resizeHeight.toNat
        then (resize cfg img).w = cfg.resizeWidth.toNat
        else (resize cfg img).h = cfg.resizeHeight.toNat) ∧
      (((resize cfg img).w : Int) * img.h -
        ((resize cfg img).h : Int) * img.w).natAbs < max img.w img.h) := by
  refine ⟨fun _ => rfl, ?_, ?_⟩
  · intro hneg
    unfold resize
    rw [if_pos hneg]
  · intro hW hH
    have hbw : 0 < cfg.resizeWidth.toNat := by omega
    have hbh : 0 < cfg.resizeHeight.toNat := by omega
    obtain ⟨f1, f2, f3, f4, f5, f6, f7⟩ :=
      fitDims_spec img.w img.h cfg.resizeWidth.toNat cfg.resizeHeight.toNat hw hh hbw hbh
    have hres : resize cfg img =
        ⟨(fitDims img.w img.h cfg.resizeWidth.toNat cfg.resizeHeight.toNat).1,
          (fitDims img.w img.h cfg.resizeWidth.toNat cfg.resizeHeight.toNat).2⟩ := by
      unfold resize
      rw [if_neg (by omega)]
      simp only []
      rw [if_neg (by omega)]
    rw [hres]
    refine ⟨f3, f4, ?_, ?_, f7⟩
    · intro hfits
      rw [f5 hfits]
    · intro hnf
      have := f6 hnf
      split at this <;> rename_i hcond
      · rw [if_pos hcond]
        exact this
      · rw [if_neg hcond]
        exact this

/-- Witness for C4 amended at a 1000×1000 image against the 800×600 box. -/
theorem resize_fit_amended_witness :
    (∀ other : Img, thumbnail cfg0 other =
      resize { cfg0 with
        resizeWidth := cfg0.thumbnailWidth
        resizeHeight := cfg0.thumbnailHeight } other) ∧
    (cfg0.resizeWidth ≤ 0 ∨ cfg0.resizeHeight ≤ 0 →
      resize cfg0 ⟨1000, 1000⟩ = ⟨1000, 1000⟩) ∧
    (0 < cfg0.resizeWidth → 0 < cfg0.resizeHeight →
      (resize cfg0 ⟨1000, 1000⟩).w ≤ cfg0.resizeWidth.toNat ∧
      (resize cfg0 ⟨1000, 1000⟩).h ≤ cfg0.resizeHeight.toNat ∧
      ((1000 : Nat) ≤ cfg0.resizeWidth.toNat ∧ (1000 : Nat) ≤ cfg0.resizeHeight.toNat →
        resize cfg0 ⟨1000, 1000⟩ = ⟨1000, 1000⟩) ∧
      (¬((1000 : Nat) ≤ cfg0.resizeWidth.toNat ∧ (1000 : Nat) ≤ cfg0.resizeHeight.toNat) →
        if cfg0.resizeWidth.toNat * 1000 < 1000 * cfg0.resizeHeight.toNat
        then (resize cfg0 ⟨1000, 1000⟩).w = cfg0.resizeWidth.toNat
        else (resize cfg0 ⟨1000, 1000⟩).h = cfg0.resizeHeight.toNat) ∧
      (((resize cfg0 ⟨1000, 1000⟩).w : Int) * 1000 -
        ((resize cfg0 ⟨1000, 1000⟩).h : Int) * 1000).natAbs < max 1000 1000) :=
  resize_fit_amended cfg0 ⟨1000, 1000⟩ (by decide) (by decide)

/-! ## C3: lifecycle record invariants -/

/-- Joining a non-empty filename yields a non-empty path. -/
theorem joinPath_ne_empty (dir fn : String) (h : fn ≠ "") : joinPath dir fn ≠ "" := by
  unfold joinPath
  split
  · exact h
  · exact append_ne_empty_left _ _ (append_ne_empty_right dir "/" (by decide))

/-- The deterministic processed filename is never empty. -/
theorem processedFilename_ne_empty (i : Image) : processedFilename i ≠ "" :=
  append_ne_empty_right _ ".jpg" (by decide)

/-- Marking a processable record as processing preserves the invariant. -/
theorem inv_markAsProcessing (r : Image) (now : Nat) (hinv : RecordInvariant r)
    (hcan : r.canBeProcessed = true) :
    RecordInvariant (r.markAsProcessing now) := by
  obtain ⟨h1, h2, h3, h4⟩ := hinv
  have hnc : r.status ≠ .completed := by
    intro hc
    simp [Image.canBeProcessed, hc] at hcan
  refine ⟨?_, ?_, ?_, ?_⟩
  · intro hcomp
    simp [Image.markAsProcessing] at hcomp
  · intro _
    simpa [Image.markAsProcessing] using h2 hnc
  · intro _
    exact Or.inr rfl
  · intro hcomp
    simp [Image.markAsProcessing] at hcomp

/-- Marking a record with an empty processed path as failed preserves the
invariant. -/
theorem inv_markAsFailed (r : Image) (msg : String) (now : Nat)
    (hpath : r.processedPath = "") :
    RecordInvariant (r.markAsFailed msg now) := by
  refine ⟨?_, ?_, ?_, ?_⟩
  · intro hc
    simp [Image.markAsFailed] at hc
  · intro _
    simpa [Image.markAsFailed] using hpath
  · intro _
    exact Or.inl rfl
  · intro hc
    simp [Image.markAsFailed] at hc

/-- Marking a record as completed with a non-empty path establishes the
invariant. -/
theorem inv_markAsCompleted (r : Image) (path : String) (w h : Int) (now : Nat)
    (hpath : path ≠ "") :
    RecordInvariant (r.markAsCompleted path w h now) := by
  refine ⟨?_, ?_, ?_, ?_⟩
  · intro _
    simpa [Image.markAsCompleted] using hpath
  · intro hc
    exact absurd rfl hc
  · intro hm
    exact absurd rfl hm
  · intro _
    rfl

/-- The record component after a best-effort failure update: it is either
unchanged or the failed mark. -/
theorem markFailedUpdate_record (env : ProcEnv) (s : WorldState) (cur : Image)
    (msg : String) :
    (markFailedUpdate env s cur msg).record = s.record ∨
    (markFailedUpdate env s cur msg).record = some (cur.markAsFailed msg env.now) := by
  unfold markFailedUpdate
  cases h : env.update2Ok <;> simp [h]

/-- The record component after the dimension/encode/save/complete stage. -/
theorem saveStage_record (env : ProcEnv) (dir : String) (image processing : Image)
    (processed : Img) (s2 : WorldState) :
    (saveStage env dir image processing processed s2).1.record = s2.record ∨
    (∃ msg, (saveStage env dir image processing processed s2).1.record =
      some (processing.markAsFailed msg env.now)) ∨
    (∃ w h, (saveStage env dir image processing processed s2).1.record =
      some (processing.markAsCompleted (joinPath dir (processedFilename image))
        w h env.now)) := by
  unfold saveStage
  repeat' split
  all_goals
    first
      | (rcases markFailedUpdate_record env _ processing _ with h | h
         · exact Or.inl h
         · exact Or.inr (Or.inl ⟨_, h⟩))
      | exact Or.inr (Or.inr ⟨(processed.w : Int), (processed.h : Int), rfl⟩)
      | exact Or.inl rfl

/-- The record component after the decode/seek/transform stage. -/
theorem transformStage_record (rotDims : Nat → Nat → Nat × Nat)
    (wm : Option Img) (cfg : ProcessingConfig) (dir : String) (env : ProcEnv)
    (image processing : Image) (s2 : WorldState) :
    (transformStage rotDims wm cfg dir env image processing s2).1.record = s2.record ∨
    (∃ msg, (transformStage rotDims wm cfg dir env image processing s2).1.record =
      some (processing.markAsFailed msg env.now)) ∨
    (∃ w h, (transformStage rotDims wm cfg dir env image processing s2).1.record =
      some (processing.markAsCompleted (joinPath dir (processedFilename image))
        w h env.now)) := by
  unfold transformStage
  repeat' split
  all_goals
    first
      | exact saveStage_record env dir image processing _ s2
      | (rcases markFailedUpdate_record env s2 processing _ with h | h
         · exact Or.inl h
         · exact Or.inr (Or.inl ⟨_, h⟩))

/-- The record component after one whole processing attempt: unchanged, the
processing mark, a failed mark, or a completed mark. -/
theorem processAttempt_record (rotDims : Nat → Nat → Nat × Nat)
    (wm : Option Img) (cfg : ProcessingConfig) (dir : String) (env : ProcEnv)
    (image : Image) (s : WorldState) :
    (processAttempt rotDims wm cfg dir env image s).1.record = s.record ∨
    (processAttempt rotDims wm cfg dir env image s).1.record =
      some (image.markAsProcessing env.now) ∨
    (∃ msg, (processAttempt rotDims wm cfg dir env image s).1.record =
      some ((image.markAsProcessing env.now).markAsFailed msg env.now)) ∨
    (∃ w h, (processAttempt rotDims wm cfg dir env image s).1.record =
      some ((image.markAsProcessing env.now).markAsCompleted
        (joinPath dir (processedFilename image)) w h env.now)) := by
  cases hu : env.update1Ok
  case false =>
    have heq : (processAttempt rotDims wm cfg dir env image s).1.record = s.record := by
      unfold processAttempt
      simp [hu]
    exact Or.inl heq
  case true =>
    cases hgo : env.getOriginal with
    | some e =>
      have heq : (processAttempt rotDims wm cfg dir env image s).1.record =
          (markFailedUpdate env
            ⟨some (image.markAsProcessing env.now), s.storageReads + 1,
              s.storageWrites, s.recordUpdates + 1⟩
            (image.markAsProcessing env.now)
            ("failed to get original file: " ++ e.msg)).record := by
        unfold processAttempt
        simp [hu, hgo]
      rcases markFailedUpdate_record env
          ⟨some (image.markAsProcessing env.now), s.storageReads + 1,
            s.storageWrites, s.recordUpdates + 1⟩
          (image.markAsProcessing env.now)
          ("failed to get original file: " ++ e.msg) with h | h
      · exact Or.inr (Or.inl (heq.trans h))
      · exact Or.inr (Or.inr (Or.inl ⟨_, heq.trans h⟩))
    | none =>
      have heq : (processAttempt rotDims wm cfg dir env image s).1.record =
          (transformStage rotDims wm cfg dir env image
            (image.markAsProcessing env.now)
            ⟨some (image.markAsProcessing env.now), s.storageReads + 1,
              s.storageWrites, s.recordUpdates + 1⟩).1.record := by
        unfold processAttempt
        simp [hu, hgo]
      rcases transformStage_record rotDims wm cfg dir env image
          (image.markAsProcessing env.now)
          ⟨some (image.markAsProcessing env.now), s.storageReads + 1,
            s.storageWrites, s.recordUpdates + 1⟩ with h | ⟨msg, h⟩ | ⟨w, hh, h⟩
      · exact Or.inr (Or.inl (heq.trans h))
      · exact Or.inr (Or.inr (Or.inl ⟨msg, heq.trans h⟩))
      · exact Or.inr (Or.inr (Or.inr ⟨w, hh, heq.trans h⟩))

/-- Every record stored after one `ProcessImage` attempt satisfies the
invariant, whatever the external outcomes were. -/
theorem processImage_preserves_invariant (rotDims : Nat → Nat → Nat × Nat)
    (wm : Option Img) (cfg : ProcessingConfig) (dir : String) (env : ProcEnv)
    (s : WorldState) (hs : ∀ r, s.record = some r → RecordInvariant r) :
    ∀ r', (processImage rotDims wm cfg dir env s).1.record = some r' →
      RecordInvariant r' := by
  intro r' hr'
  cases hrec : s.record with
  | none =>
    unfold processImage at hr'
    rw [hrec] at hr'
    exact hs r' hr'
  | some image =>
    have hinv := hs image hrec
    by_cases hcan' : image.canBeProcessed = true
    case neg =>
      have hcanf : image.canBeProcessed = false := by
        revert hcan'
        cases image.canBeProcessed <;> simp
      rw [processImage_noop rotDims wm cfg dir env s image hrec hcanf] at hr'
      exact hs r' hr'
    case pos =>
      have hnc : image.status ≠ .completed := by
        intro hc
        simp [Image.canBeProcessed, hc] at hcan'
      have hpath0 : image.processedPath = "" := hinv.2.1 hnc
      have hstep : processImage rotDims wm cfg dir env s =
          processAttempt rotDims wm cfg dir env image s := by
        unfold processImage
        rw [hrec]
        simp [hcan']
      rw [hstep] at hr'
      rcases processAttempt_record rotDims wm cfg dir env image s with
        h | h | ⟨msg, h⟩ | ⟨w, hgt, h⟩
      · rw [h, hrec] at hr'
        injection hr' with hinj
        exact hinj ▸ hinv
      · rw [h] at hr'
        injection hr' with hinj
        exact hinj ▸ inv_markAsProcessing image env.now hinv hcan'
      · rw [h] at hr'
        injection hr' with hinj
        exact hinj ▸ inv_markAsFailed _ msg env.now
          (by simpa [Image.markAsProcessing] using hpath0)
      · rw [h] at hr'
        injection hr' with hinj
        exact hinj ▸ inv_markAsCompleted _ _ w hgt env.now
          (joinPath_ne_empty dir _ (processedFilename_ne_empty image))

/-- Every reachable stored record satisfies the invariant. -/
theorem reachableRecord_invariant (se : SysEnv) (s : WorldState)
    (h : ReachableRecord se s) : ∀ r, s.record = some r → RecordInvariant r := by
  induction h with
  | upload id fn path mime size pt now =>
    intro r hr
    injection hr with h'
    subst h'
    refine ⟨?_, ?_, ?_, ?_⟩ <;> intro h <;> simp [freshUpload] at h ⊢
  | step env s hstep ih =>
    exact processImage_preserves_invariant _ _ _ _ env s ih
  | deleteRecord s hstep ih =>
    intro r hr
    simp at hr

/-- C3 counterexample: a record that failed once and is being retried is
reachable with status `processing` while still carrying the old non-empty
error message — MarkAsProcessing does not clear error_message, and the
best-effort failure update of the retry can itself fail. -/
theorem record_invariant_claim_false :
    ∃ (se : SysEnv) (s : WorldState) (r : Image),
      ReachableRecord se s ∧ s.record = some r ∧
      r.errorMessage ≠ "" ∧ r.status ≠ .failed := by
  refine ⟨se0,
    (processImage se0.rotDims se0.watermarkImg se0.cfg se0.processedDir envGetFail2
      (processImage se0.rotDims se0.watermarkImg se0.cfg se0.processedDir envGetFail1
        upState0).1).1,
    { samplePending with
        status := .processing
        errorMessage := "failed to get original file: io"
        updatedAt := 7 },
    ?_, ?_, ?_, ?_⟩
  · exact ReachableRecord.step envGetFail2 _
      (ReachableRecord.step envGetFail1 _
        (ReachableRecord.upload "id2" "dog.jpeg" "original/id2.jpeg" "image/jpeg" 999
          processingResize 5))
  · rfl
  · decide
  · decide

/-- C3 amended: for every reachable record, processed_path is non-empty iff
the status is completed, error_message is cleared on completion, but a
non-empty error_message implies status is failed OR processing (the
`processing` case arises on a retry after a failure, since MarkAsProcessing
does not clear the message). -/
theorem record_lifecycle_invariant (se : SysEnv) (s : WorldState)
    (h : ReachableRecord se s) (r : Image) (hr : s.record = some r) :
    (r.processedPath ≠ "" ↔ r.status = .completed) ∧
    (r.errorMessage ≠ "" → r.status = .failed ∨ r.status = .processing) ∧
    (r.status = .completed → r.errorMessage = "") := by
  obtain ⟨h1, h2, h3, h4⟩ := reachableRecord_invariant se s h r hr
  refine ⟨⟨?_, h1⟩, h3, h4⟩
  intro hp
  by_contra hc
  exact hp (h2 hc)

/-- Witness for C3 amended at the freshly uploaded record. -/
theorem record_lifecycle_invariant_witness :
    (samplePending.processedPath ≠ "" ↔ samplePending.status = .completed) ∧
    (samplePending.errorMessage ≠ "" →
      samplePending.status = .failed ∨ samplePending.status = .processing) ∧
    (samplePending.status = .completed → samplePending.errorMessage = "") :=
  record_lifecycle_invariant se0 upState0
    (ReachableRecord.upload "id2" "dog.jpeg" "original/id2.jpeg" "image/jpeg" 999
      processingResize 5)
    samplePending rfl

end ImageProcessor
